import Mathlib

/-!
Shallow embedding of `lib/Sender.js`, the HyBi WebSocket frame encoder
(send / ping / pong / close, the shared `frameAndSend` routine, the
permessage-deflate adapter), together with theorems checking the
natural-language specification against it.

Buffers are modelled as `List Nat` of byte values; every write the code
performs on the transport socket is recorded in call order.
-/

/-- Bytes stored by the source's `writeUInt16BE` helper: entry `i` is the JS
expression assigned to `this[offset + i]`. -/
def writeUInt16BE (value : Nat) : List Nat :=
  [(value &&& 0xff00) >>> 8, value &&& 0xff]

/-- Bytes stored by the source's `writeUInt32BE` helper: entry `i` is the JS
expression assigned to `this[offset + i]`. -/
def writeUInt32BE (value : Nat) : List Nat :=
  [(value &&& 0xff000000) >>> 24, (value &&& 0xff0000) >>> 16,
   (value &&& 0xff00) >>> 8, value &&& 0xff]

/-- A four-byte masking key, as produced by `getRandomMask` and cached in
`self._randomMask`.  The theorems quantify over the key, covering every
value the random generator (or the cache) can supply. -/
structure MaskKey where
  b0 : Nat
  b1 : Nat
  b2 : Nat
  b3 : Nat
deriving DecidableEq

/-- Indexing `mask[j]` for `j` in `0..3`. -/
def MaskKey.get (m : MaskKey) : Nat → Nat
  | 0 => m.b0
  | 1 => m.b1
  | 2 => m.b2
  | _ => m.b3

/-- The four key bytes in order, as stamped into the frame header. -/
def MaskKey.toList (m : MaskKey) : List Nat :=
  [m.b0, m.b1, m.b2, m.b3]

/-- Modelled from the spec: `bufferUtil.mask` lives in `lib/BufferUtil`,
which is not among the sources; per the spec it XORs every payload byte
with `mask[i % 4]`.  The `Nat` argument is the running loop index `i`
(the source always starts it at 0; the in-place call
`bufferUtil.mask(data, mask, data, 0, dataLength)` uses the same loop). -/
def maskBytes (key : MaskKey) : Nat → List Nat → List Nat
  | _, [] => []
  | i, b :: rest => (b ^^^ key.get (i % 4)) :: maskBytes key (i + 1) rest

/-- JavaScript values accepted as the payload argument of
send/ping/pong/close: `undefined` (or `null`), a string (carried as its
UTF-8 bytes), a `Buffer`, or an `ArrayBuffer`/typed-array view (carried as
the bytes `getArrayBuffer` copies out of it). -/
inductive JsData where
  | undef : JsData
  | str : List Nat → JsData
  | buf : List Nat → JsData
  | arr : List Nat → JsData

/-- JavaScript truthiness test `!message_data`: `undefined`, `null` and the
empty string are falsy; a `Buffer` or `ArrayBuffer` object is always
truthy, even when it has zero length. -/
def JsData.falsy : JsData → Bool
  | .undef => true
  | .str s => s.isEmpty
  | .buf _ => false
  | .arr _ => false

/-- The `Buffer.isBuffer(message_data)` test. -/
def JsData.isBuffer : JsData → Bool
  | .buf _ => true
  | _ => false

/-- The byte contents after the non-Buffer conversions in `frameAndSend`
(`new Buffer(string)` for strings, `getArrayBuffer` for array buffers). -/
def JsData.bytes : JsData → List Nat
  | .undef => []
  | .str s => s
  | .buf b => b
  | .arr b => b

/-- The `secondByte` variable of `_frame_and_send`: initialised to
`dataLength`, overwritten with 127 when `dataLength >= 65536` and with 126
when `dataLength > 125`. -/
def secondByteVal (dataLength : Nat) : Nat :=
  if dataLength ≥ 65536 then 127
  else if dataLength > 125 then 126
  else dataLength

/-- The extended-length bytes written at offset 2: `writeUInt32BE(0, 2)`
then `writeUInt32BE(dataLength, 6)` in the 127 case, `writeUInt16BE` in the
126 case, nothing otherwise. -/
def extLenBytes (dataLength : Nat) : List Nat :=
  if dataLength ≥ 65536 then writeUInt32BE 0 ++ writeUInt32BE dataLength
  else if dataLength > 125 then writeUInt16BE dataLength
  else []

/-- The `dataOffset` variable of `_frame_and_send`: starts at
`maskData ? 6 : 2` and grows by 8 or 2 with the extended length field. -/
def dataOffsetOf (maskData : Bool) (dataLength : Nat) : Nat :=
  (if maskData then 6 else 2) +
    (if dataLength ≥ 65536 then 8 else if dataLength > 125 then 2 else 0)

/-- The `mergeBuffers` decision of `_frame_and_send`:
`dataLength < 32768 || (maskData && !canModifyData)`. -/
def mergeDecision (dataLength : Nat) (maskData canModifyData : Bool) : Bool :=
  decide (dataLength < 32768) || (maskData && !canModifyData)

/-- The inner `_frame_and_send` closure.  Result: the list of buffers
passed to `socket.write`, in order, followed by the final contents of the
payload buffer `data` (which the in-place masking branch mutates).
The single allocated `outputBuffer` is reconstructed as the concatenation
of the regions the source writes: byte 0, byte 1, the extended length at
offset 2, the mask key at `dataOffset - 4`, and (when merging) the payload
at `dataOffset`; every byte of the allocation is covered. -/
def frameAndSendCore (opcode : Nat) (finalFragment maskData compress canModifyData : Bool)
    (key : MaskKey) (data : List Nat) : List (List Nat) × List Nat :=
  let dataLength := data.length
  let secondByte := secondByteVal dataLength
  let mergeBuffers := mergeDecision dataLength maskData canModifyData
  let byte0 := (if finalFragment then opcode ||| 0x80 else opcode) |||
    (if compress then 0x40 else 0)
  let ext := extLenBytes dataLength
  if maskData then
    let masked := maskBytes key 0 data
    let header := byte0 :: (secondByte ||| 0x80) :: (ext ++ key.toList)
    if mergeBuffers then ([header ++ masked], data)
    else ([header, masked], masked)
  else
    let header := byte0 :: secondByte :: ext
    if mergeBuffers then ([header ++ data], data)
    else ([header, data], data)

/-- The two-byte (plus four zero mask bytes) frame written by the
empty-payload fast path of `frameAndSend`. -/
def fastFrame (opcode : Nat) (finalFragment maskData : Bool) : List Nat :=
  [opcode ||| (if finalFragment then 0x80 else 0),
   0 ||| (if maskData then 0x80 else 0)] ++
    (if maskData then [0, 0, 0, 0] else [])

/-- Accumulation of the deflate stream's `data` events: `cdata` starts as
an empty buffer and each chunk is appended with `Buffer.concat`. -/
def deflateAccum (chunks : List (List Nat)) : List Nat :=
  chunks.foldl (fun cdata chunk => cdata ++ chunk) []

/-- The buffer the `end` handler passes to `_frame_and_send`:
`cdata.slice(0, -6)`, dropping the six-byte sync-flush trailer
(`00 00 ff ff 30 00`). -/
def deflateTrimmed (chunks : List (List Nat)) : List Nat :=
  (deflateAccum chunks).take ((deflateAccum chunks).length - 6)

/-- `Sender.prototype.frameAndSend`.  The `chunks` argument records the
chunk sequence the external deflate collaborator would emit for
`message_data`; it is consulted only on the compressed path.  Result: the
socket writes, and the final contents of the buffer handed to
`_frame_and_send`. -/
def frameAndSend (opcode : Nat) (message_data : JsData)
    (finalFragment maskData compress : Bool) (key : MaskKey)
    (chunks : List (List Nat)) : List (List Nat) × List Nat :=
  if message_data.falsy then
    ([fastFrame opcode finalFragment maskData], message_data.bytes)
  else
    let canModifyData := !message_data.isBuffer
    if compress then
      frameAndSendCore opcode finalFragment maskData true canModifyData key
        (deflateTrimmed chunks)
    else
      frameAndSendCore opcode finalFragment maskData false canModifyData key
        message_data.bytes

/-- Modelled from the spec: `ErrorCodes.isValidErrorCode` lives in
`lib/ErrorCodes`, which is not among the sources; the spec describes it as
the table of registry-legal 16-bit close codes (RFC 6455: 1000-1011 minus
the reserved 1004/1005/1006, plus the 3000-4999 range), with 999 out of
the registry and 1000 legal. -/
def isValidErrorCode (code : Nat) : Bool :=
  decide ((1000 ≤ code ∧ code ≤ 1011 ∧ code ≠ 1004 ∧ code ≠ 1005 ∧ code ≠ 1006) ∨
    (3000 ≤ code ∧ code ≤ 4999))

/-- The `code` argument of `close`: absent, a number, or a value of some
other type (`typeof code !== 'number'`). -/
inductive CloseCodeArg where
  | undef : CloseCodeArg
  | num : Nat → CloseCodeArg
  | nonNumber : CloseCodeArg

/-- `Sender.prototype.close` up to its `frameAndSend` call.  A `.error`
result models the synchronous `throw` performed before any I/O; `.ok`
carries the frame writes.  `reason` holds the UTF-8 bytes of the reason
text (empty for an absent or empty reason, matching the
`data ? Buffer.byteLength(data) : 0` computation). -/
def closeFrame (code : CloseCodeArg) (reason : List Nat) (maskData : Bool)
    (key : MaskKey) : Except String (List (List Nat) × List Nat) :=
  match code with
  | .nonNumber => .error ("first argument must be a valid error code number")
  | .num n =>
      if isValidErrorCode n then
        .ok (frameAndSend 0x8 (JsData.buf (writeUInt16BE n ++ reason))
          true maskData false key [])
      else .error ("first argument must be a valid error code number")
  | .undef =>
      .ok (frameAndSend 0x8 (JsData.buf (writeUInt16BE 1000 ++ reason))
        true maskData false key [])

/-- The per-connection encoder state: the single `firstFragment` boolean
set by the constructor. -/
structure SenderState where
  firstFragment : Bool
deriving DecidableEq

/-- `Sender.prototype.send`: computes the opcode from `options.binary` and
the fragmentation state, updates `firstFragment`, and calls
`frameAndSend`. -/
def sendStep (st : SenderState) (d : JsData)
    (finalFragment maskOpt binary compress : Bool) (key : MaskKey)
    (chunks : List (List Nat)) : (List (List Nat) × List Nat) × SenderState :=
  let opcode : Nat := if binary then 2 else 1
  let opcode := if st.firstFragment = false then 0 else opcode
  let st := if st.firstFragment = false then st else ⟨false⟩
  let st := if finalFragment then ⟨true⟩ else st
  (frameAndSend opcode d finalFragment maskOpt compress key chunks, st)

/-- `Sender.prototype.ping`: `frameAndSend(0x9, data || '', true, mask)`;
the body never mentions `firstFragment`, so the state passes through. -/
def pingStep (st : SenderState) (d : JsData) (maskOpt : Bool) (key : MaskKey) :
    (List (List Nat) × List Nat) × SenderState :=
  (frameAndSend 0x9 (if d.falsy then JsData.str [] else d) true maskOpt false key [], st)

/-- `Sender.prototype.pong`: identical to ping with opcode `0xa`. -/
def pongStep (st : SenderState) (d : JsData) (maskOpt : Bool) (key : MaskKey) :
    (List (List Nat) × List Nat) × SenderState :=
  (frameAndSend 0xa (if d.falsy then JsData.str [] else d) true maskOpt false key [], st)

/-- `Sender.prototype.close` as a state transformer: the body never
mentions `firstFragment`. -/
def closeStep (st : SenderState) (code : CloseCodeArg) (reason : List Nat)
    (maskData : Bool) (key : MaskKey) :
    Except String (List (List Nat) × List Nat) × SenderState :=
  (closeFrame code reason maskData key, st)

/-- Outcome of the external deflate collaborator for one compression job:
either the stream ended after emitting `chunks`, or it raised an error. -/
inductive DeflateOutcome where
  | ended : List (List Nat) → DeflateOutcome
  | errored : String → DeflateOutcome

/-- How a compressed send's result reaches the caller. -/
inductive SendOutcome where
  | wrote : List (List Nat) → SendOutcome
  | calledBack : String → SendOutcome
  | errorEvent : String → SendOutcome
  | threw : String → SendOutcome
deriving DecidableEq

/-- Delivery of a compressed send once the deflate stream settles, per the
handlers registered in `frameAndSend`: the `error` handler executes
`throw new Error(err)` (an exception from inside the stream callback, not
a callback invocation and not an `error` event on the encoder); the `end`
handler frames and writes the trimmed buffer. -/
def compressedDeliver (opcode : Nat) (finalFragment maskData canModifyData : Bool)
    (key : MaskKey) (outcome : DeflateOutcome) : SendOutcome :=
  match outcome with
  | .errored msg => .threw msg
  | .ended chunks =>
      .wrote (frameAndSendCore opcode finalFragment maskData true canModifyData key
        (deflateTrimmed chunks)).1

/-- One queued send operation for the ordering analysis: an uncompressed
payload, or a compressed one described by the chunks its deflate stream
will emit. -/
inductive SendReq where
  | plain : List Nat → SendReq
  | compressed : List (List Nat) → SendReq

/-- Event-loop events: invoking the next send call, or delivery of the
deflate `end` event of send `i`. -/
inductive Ev where
  | call : Nat → Ev
  | deflateEnd : Nat → Ev
deriving DecidableEq

/-- Validity of an event trace: calls occur in submission order `0,1,...`,
and a `deflateEnd i` only after `call i` and at most once. -/
def validFrom (nextCall numReqs : Nat) (done : List Nat) : List Ev → Bool
  | [] => nextCall == numReqs
  | .call i :: rest =>
      (i == nextCall) && (i < numReqs : Bool) && validFrom (nextCall + 1) numReqs done rest
  | .deflateEnd i :: rest =>
      (i < nextCall : Bool) && !(done.contains i) && validFrom nextCall numReqs (i :: done) rest

/-- Validity of a full trace for `numReqs` sends. -/
def validTrace (numReqs : Nat) (trace : List Ev) : Bool :=
  validFrom 0 numReqs [] trace

/-- The buffers reaching the transport, in order, when the event loop runs
`trace` over the sends `reqs` (all with opcode 1, fin, unmasked, as in the
source: an uncompressed send writes during its call; a compressed send
writes from its `end` handler, which frames `deflateTrimmed`). -/
def scheduleWrites (key : MaskKey) (reqs : List SendReq) (trace : List Ev) :
    List (List Nat) :=
  trace.foldl (fun acc ev =>
    match ev with
    | .call i =>
        match reqs.getD i (.compressed []) with
        | .plain p => acc ++ (frameAndSendCore 1 true false false false key p).1
        | .compressed _ => acc
    | .deflateEnd i =>
        match reqs.getD i (.plain []) with
        | .compressed chunks =>
            acc ++ (frameAndSendCore 1 true false true false key
              (deflateTrimmed chunks)).1
        | .plain _ => acc) []

/-- Expressed from the spec's words: the documented length-encoding rule
for a frame header carrying payload length `n`, plus the requirement that
the length decoded back from the header equals `n`. -/
def specDecodeLen (frame : List Nat) : Nat :=
  if frame.getD 1 0 % 128 < 126 then frame.getD 1 0 % 128
  else if frame.getD 1 0 % 128 = 126 then 256 * frame.getD 2 0 + frame.getD 3 0
  else
    2 ^ 56 * frame.getD 2 0 + 2 ^ 48 * frame.getD 3 0 + 2 ^ 40 * frame.getD 4 0 +
      2 ^ 32 * frame.getD 5 0 + 2 ^ 24 * frame.getD 6 0 + 2 ^ 16 * frame.getD 7 0 +
      2 ^ 8 * frame.getD 8 0 + frame.getD 9 0

/-- Expressed from the spec's words: the width rule for the emitted
header.  The low 7 bits of byte 1 hold `n` itself, or the marker 126
followed by a 2-byte big-endian `n`, or the marker 127 followed by an
8-byte big-endian `n`; and decoding the header recovers `n`. -/
def LenFieldSpec (frame : List Nat) (n : Nat) : Prop :=
  (n < 126 → frame.getD 1 0 % 128 = n) ∧
  (126 ≤ n → n ≤ 65535 → frame.getD 1 0 % 128 = 126 ∧
    256 * frame.getD 2 0 + frame.getD 3 0 = n) ∧
  (65536 ≤ n → frame.getD 1 0 % 128 = 127 ∧
    2 ^ 56 * frame.getD 2 0 + 2 ^ 48 * frame.getD 3 0 + 2 ^ 40 * frame.getD 4 0 +
      2 ^ 32 * frame.getD 5 0 + 2 ^ 24 * frame.getD 6 0 + 2 ^ 16 * frame.getD 7 0 +
      2 ^ 8 * frame.getD 8 0 + frame.getD 9 0 = n) ∧
  specDecodeLen frame = n

/-- Bitwise or distributes over reduction modulo a power of two. -/
lemma lor_mod_two_pow (a b k : Nat) :
    (a ||| b) % 2 ^ k = a % 2 ^ k ||| b % 2 ^ k := by
  apply Nat.eq_of_testBit_eq
  intro i
  simp [Nat.testBit_mod_two_pow, Nat.testBit_or, Bool.and_or_distrib_left]

/-- Masking out one byte at bit offset `k` and shifting it down extracts
that byte. -/
lemma and_shift_byte (n k : Nat) :
    (n &&& ((2 ^ 8 - 1) <<< k)) >>> k = (n >>> k) % 2 ^ 8 := by
  apply Nat.eq_of_testBit_eq
  intro i
  simp only [Nat.testBit_shiftRight, Nat.testBit_and, Nat.testBit_shiftLeft,
    Nat.testBit_two_pow_sub_one, Nat.testBit_mod_two_pow]
  have h1 : k + i - k = i := by omega
  have h2 : k ≤ k + i := by omega
  simp [h1, h2, Bool.and_comm]

/-- The low-byte mask in arithmetic form. -/
lemma and_ff (n : Nat) : n &&& 0xff = n % 256 := by
  have h := Nat.and_pow_two_sub_one_eq_mod n 8
  norm_num at h
  exact h

/-- The second-byte mask in arithmetic form. -/
lemma and_ff00 (n : Nat) : (n &&& 0xff00) >>> 8 = n / 256 % 256 := by
  have h := and_shift_byte n 8
  norm_num [Nat.shiftLeft_eq, Nat.shiftRight_eq_div_pow] at h ⊢
  exact h

/-- The third-byte mask in arithmetic form. -/
lemma and_ff0000 (n : Nat) : (n &&& 0xff0000) >>> 16 = n / 65536 % 256 := by
  have h := and_shift_byte n 16
  norm_num [Nat.shiftLeft_eq, Nat.shiftRight_eq_div_pow] at h ⊢
  exact h

/-- The top-byte mask in arithmetic form. -/
lemma and_ff000000 (n : Nat) : (n &&& 0xff000000) >>> 24 = n / 16777216 % 256 := by
  have h := and_shift_byte n 24
  norm_num [Nat.shiftLeft_eq, Nat.shiftRight_eq_div_pow] at h ⊢
  exact h

/-- Arithmetic characterisation of `writeUInt16BE`. -/
lemma writeUInt16BE_eq (n : Nat) : writeUInt16BE n = [n / 256 % 256, n % 256] := by
  simp [writeUInt16BE, and_ff, and_ff00]

/-- Arithmetic characterisation of `writeUInt32BE`. -/
lemma writeUInt32BE_eq (n : Nat) :
    writeUInt32BE n = [n / 16777216 % 256, n / 65536 % 256, n / 256 % 256, n % 256] := by
  simp [writeUInt32BE, and_ff, and_ff00, and_ff0000, and_ff000000]

/-- Masking twice with the same key from the same loop index restores the
input. -/
lemma maskBytes_maskBytes (key : MaskKey) :
    ∀ (i : Nat) (l : List Nat), maskBytes key i (maskBytes key i l) = l := by
  intro i l
  induction l generalizing i with
  | nil => simp [maskBytes]
  | cons b rest ih => simp [maskBytes, ih, Nat.xor_assoc]

/-- Masking preserves length. -/
lemma maskBytes_length (key : MaskKey) :
    ∀ (i : Nat) (l : List Nat), (maskBytes key i l).length = l.length := by
  intro i l
  induction l generalizing i with
  | nil => simp [maskBytes]
  | cons b rest ih => simp [maskBytes, ih]

/-- The `Buffer.concat` fold equals the flat concatenation of the chunks. -/
lemma foldl_append_eq_flatten :
    ∀ (chunks : List (List Nat)) (acc : List Nat),
      chunks.foldl (fun cdata chunk => cdata ++ chunk) acc = acc ++ chunks.flatten := by
  intro chunks
  induction chunks with
  | nil => simp
  | cons c cs ih => intro acc; simp [ih]

/-- Length of the extended length field. -/
lemma extLenBytes_length (n : Nat) :
    (extLenBytes n).length = (if n ≥ 65536 then 8 else if n > 125 then 2 else 0) := by
  by_cases h1 : n ≥ 65536 <;> by_cases h2 : n > 125 <;>
    simp [extLenBytes, h1, h2, writeUInt16BE, writeUInt32BE]

/-- Normal form of the byte stream a `_frame_and_send` call puts on the
wire: the header, then the (masked) payload, whether or not the two were
merged into one write. -/
lemma frameAndSendCore_flatten (opcode : Nat) (fin mask compress canModify : Bool)
    (key : MaskKey) (data : List Nat) :
    ((frameAndSendCore opcode fin mask compress canModify key data).1).flatten =
      (((if fin then opcode ||| 0x80 else opcode) ||| (if compress then 0x40 else 0)) ::
        (if mask then secondByteVal data.length ||| 0x80 else secondByteVal data.length) ::
        (extLenBytes data.length ++ (if mask then key.toList else []))) ++
        (if mask then maskBytes key 0 data else data) := by
  cases mask with
  | true =>
      by_cases hmb : mergeDecision data.length true canModify <;>
        simp [frameAndSendCore, hmb]
  | false =>
      by_cases hmb : mergeDecision data.length false canModify <;>
        simp [frameAndSendCore, hmb]

/-- Specialisation of `lor_mod_two_pow` to the low four bits. -/
lemma lor_mod_sixteen (a b : Nat) : (a ||| b) % 16 = a % 16 ||| b % 16 := by
  have h := lor_mod_two_pow a b 4
  norm_num at h
  exact h

/-- Specialisation of `lor_mod_two_pow` to the low seven bits. -/
lemma lor_mod_128 (a b : Nat) : (a ||| b) % 128 = a % 128 ||| b % 128 := by
  have h := lor_mod_two_pow a b 7
  norm_num at h
  exact h

/-- When `canModifyData` is false, `_frame_and_send` leaves the payload
buffer untouched: masking always lands in the merged output buffer. -/
lemma frameAndSendCore_dataAfter (opcode : Nat) (f m compress : Bool) (key : MaskKey)
    (data : List Nat) :
    (frameAndSendCore opcode f m compress false key data).2 = data := by
  cases m with
  | true => simp [frameAndSendCore, mergeDecision]
  | false =>
      by_cases hmb : mergeDecision data.length false false <;>
        simp [frameAndSendCore, hmb]

/-- The first byte put on the wire always carries the opcode in its low
four bits, whatever path `frameAndSend` takes. -/
lemma frameAndSend_head_mod16 (opcode : Nat) (d : JsData) (f m c : Bool)
    (key : MaskKey) (chunks : List (List Nat)) :
    ((frameAndSend opcode d f m c key chunks).1.flatten.getD 0 0) % 16 = opcode % 16 := by
  by_cases hf : d.falsy
  · cases f <;> simp [frameAndSend, hf, fastFrame, lor_mod_sixteen]
  · by_cases hc : c <;>
      cases f <;>
        simp [frameAndSend, hf, hc, frameAndSendCore_flatten, lor_mod_sixteen]

/-- C2: on every `send`, the frame opcode (low four bits of the first wire
byte) is the real data opcode (2 for binary, 1 for text) exactly when
`firstFragment` was true before the call and 0 (continuation) otherwise;
after the call `firstFragment` equals the call's fin flag; and ping, pong
and close neither modify the fragmentation state nor let it influence
their output. -/
theorem fragmentation_invariant (st : SenderState) (d : JsData) (f m b c : Bool)
    (key : MaskKey) (chunks : List (List Nat)) :
    (((sendStep st d f m b c key chunks).1.1.flatten.getD 0 0) % 16 =
      (if st.firstFragment then (if b then 2 else 1) else 0)) ∧
    ((sendStep st d f m b c key chunks).2.firstFragment = f) ∧
    (∀ dp mp kp, (pingStep st dp mp kp).2 = st ∧ (pongStep st dp mp kp).2 = st) ∧
    (∀ st2 dp mp kp, (pingStep st dp mp kp).1 = (pingStep st2 dp mp kp).1 ∧
      (pongStep st dp mp kp).1 = (pongStep st2 dp mp kp).1) ∧
    (∀ code reason mp kp, (closeStep st code reason mp kp).2 = st ∧
      ∀ st2, (closeStep st code reason mp kp).1 = (closeStep st2 code reason mp kp).1) := by
  refine ⟨?_, ?_, fun dp mp kp => ⟨rfl, rfl⟩, fun st2 dp mp kp => ⟨rfl, rfl⟩,
    fun code reason mp kp => ⟨rfl, fun st2 => rfl⟩⟩
  · cases hst : st.firstFragment <;> cases b
    · simpa [sendStep, hst] using frameAndSend_head_mod16 0 d f m c key chunks
    · simpa [sendStep, hst] using frameAndSend_head_mod16 0 d f m c key chunks
    · simpa [sendStep, hst] using frameAndSend_head_mod16 1 d f m c key chunks
    · simpa [sendStep, hst] using frameAndSend_head_mod16 2 d f m c key chunks
  · cases hst : st.firstFragment <;> cases f <;> simp [sendStep, hst]

/-- C4: `close` with code 999 (out of the registry) or with a non-numeric
code fails synchronously with the invalid-close-code error before any
write, while `close(1000)` with reason "bye" succeeds and the emitted
frame carries payload `0x03 0xE8` followed by the bytes of "bye". -/
theorem close_code_validation (reason : List Nat) (m : Bool) (key : MaskKey) :
    closeFrame (CloseCodeArg.num 999) reason m key =
      .error ("first argument must be a valid error code number") ∧
    closeFrame CloseCodeArg.nonNumber reason m key =
      .error ("first argument must be a valid error code number") ∧
    closeFrame (CloseCodeArg.num 1000) [0x62, 0x79, 0x65] false key =
      .ok ([[0x88, 0x05, 0x03, 0xE8, 0x62, 0x79, 0x65]],
        [0x03, 0xE8, 0x62, 0x79, 0x65]) := by
  exact ⟨rfl, rfl, rfl⟩

/-- C5 counterexample: `close` invoked with no code argument still emits a
close frame whose payload is the two-byte default code 1000 (`0x03 0xE8`),
not an empty payload. -/
theorem close_absent_code_counterexample :
    closeFrame CloseCodeArg.undef [] false ⟨0, 0, 0, 0⟩ =
      .ok ([[0x88, 0x02, 0x03, 0xE8]], [0x03, 0xE8]) ∧
    ([0x88, 0x02, 0x03, 0xE8].drop 2 : List Nat) ≠ [] := by
  exact ⟨rfl, by decide⟩

/-- C5 amended: an absent close code defaults to 1000, so `close()` is
indistinguishable from `close(1000)` — the frame always carries the
two-byte code field, and a close frame without payload is never
produced. -/
theorem close_absent_code_defaults (reason : List Nat) (m : Bool) (key : MaskKey) :
    closeFrame CloseCodeArg.undef reason m key =
      closeFrame (CloseCodeArg.num 1000) reason m key := by
  rfl

/-- C6 counterexample: a deflate error is rethrown from the stream's error
handler, which is neither the per-call completion callback nor an error
event on the encoder. -/
theorem compression_error_counterexample :
    compressedDeliver 1 true false false ⟨0, 0, 0, 0⟩ (DeflateOutcome.errored ("boom")) =
      SendOutcome.threw ("boom") ∧
    SendOutcome.threw ("boom") ≠ SendOutcome.calledBack ("boom") ∧
    SendOutcome.threw ("boom") ≠ SendOutcome.errorEvent ("boom") := by
  refine ⟨rfl, ?_, ?_⟩ <;> simp

/-- C6 amended: when the deflate collaborator signals an error, no frame
is written for that send, but the failure is surfaced by rethrowing the
error from the stream's error handler — not through the completion
callback and not as an encoder error event. -/
theorem compression_error_rethrows (opcode : Nat) (f m cm : Bool) (key : MaskKey)
    (msg : String) :
    compressedDeliver opcode f m cm key (DeflateOutcome.errored msg) =
      SendOutcome.threw msg ∧
    (∀ frames, compressedDeliver opcode f m cm key (DeflateOutcome.errored msg) ≠
      SendOutcome.wrote frames) ∧
    (∀ s, compressedDeliver opcode f m cm key (DeflateOutcome.errored msg) ≠
      SendOutcome.calledBack s) ∧
    (∀ s, compressedDeliver opcode f m cm key (DeflateOutcome.errored msg) ≠
      SendOutcome.errorEvent s) := by
  refine ⟨rfl, ?_, ?_, ?_⟩ <;> intro x <;> simp [compressedDeliver]

/-- C7: for every compressed send, the payload handed to the frame-build
routine is the concatenation of all deflate output chunks with exactly the
last six bytes removed, so the six-byte sync-flush trailer never reaches
the wire. -/
theorem compressed_payload_trims_trailer (chunks : List (List Nat)) (opcode : Nat)
    (f m : Bool) (key : MaskKey) (b : List Nat) :
    deflateAccum chunks = chunks.flatten ∧
    frameAndSend opcode (JsData.buf b) f m true key chunks =
      frameAndSendCore opcode f m true false key (deflateTrimmed chunks) ∧
    deflateTrimmed chunks ++
        (deflateAccum chunks).drop ((deflateAccum chunks).length - 6) =
      deflateAccum chunks ∧
    (deflateTrimmed chunks).length = (deflateAccum chunks).length - 6 ∧
    ((deflateAccum chunks).drop ((deflateAccum chunks).length - 6)).length =
      min 6 (deflateAccum chunks).length := by
  refine ⟨?_, rfl, ?_, ?_, ?_⟩
  · simp [deflateAccum, foldl_append_eq_flatten]
  · simp [deflateTrimmed, List.take_append_drop]
  · simp only [deflateTrimmed, List.length_take]
    omega
  · simp only [List.length_drop]
    omega

/-- C8 counterexample: a zero-length Buffer payload is truthy in
JavaScript, so it does not take the empty-payload fast path; with masking
on, the emitted frame carries the cached mask key bytes (here 1 2 3 4)
rather than four zero bytes. -/
theorem empty_buffer_counterexample :
    (frameAndSend 2 (JsData.buf []) true true false ⟨1, 2, 3, 4⟩ []).1 =
      [[0x82, 0x80, 1, 2, 3, 4]] ∧
    ([[0x82, 0x80, 1, 2, 3, 4]] : List (List Nat)) ≠ [[0x82, 0x80, 0, 0, 0, 0]] := by
  exact ⟨rfl, by decide⟩

/-- C8 amended: the fast path triggers on a falsy payload argument
(absent, or the empty string) and then emits exactly the two-byte header
plus four zero mask bytes when masked; a zero-length Buffer instead runs
through the normal length and merge logic and, when masked, carries the
four cached mask key bytes. -/
theorem empty_payload_fast_path (opcode : Nat) (f m : Bool) (key : MaskKey) :
    (frameAndSend opcode JsData.undef f m false key []).1 =
      [[if f then opcode ||| 0x80 else opcode, if m then 0x80 else 0] ++
        (if m then [0, 0, 0, 0] else [])] ∧
    (frameAndSend opcode (JsData.str []) f m false key []).1 =
      [[if f then opcode ||| 0x80 else opcode, if m then 0x80 else 0] ++
        (if m then [0, 0, 0, 0] else [])] ∧
    (frameAndSend opcode (JsData.buf []) f true false key []).1 =
      [[(if f then opcode ||| 0x80 else opcode), 0x80,
        key.b0, key.b1, key.b2, key.b3]] := by
  refine ⟨?_, ?_, ?_⟩
  · cases f <;> cases m <;>
      simp [frameAndSend, fastFrame, JsData.falsy, JsData.bytes]
  · cases f <;> cases m <;>
      simp [frameAndSend, fastFrame, JsData.falsy, JsData.bytes]
  · cases f <;>
      simp [frameAndSend, frameAndSendCore, JsData.falsy, JsData.isBuffer,
        JsData.bytes, mergeDecision, secondByteVal, extLenBytes, maskBytes,
        MaskKey.toList]

/-- C9: the event trace in which the second of two back-to-back compressed
sends finishes deflating first is valid for the event loop, and it makes
the frames reach the transport in completion order — the reverse of call
order — while the trace whose completions occur in call order yields the
opposite write order. -/
theorem compressed_sends_out_of_order :
    validTrace 2 [Ev.call 0, Ev.call 1, Ev.deflateEnd 1, Ev.deflateEnd 0] = true ∧
    scheduleWrites ⟨0, 0, 0, 0⟩
        [SendReq.compressed [[10, 11, 12, 0, 0, 255, 255, 48, 0]],
         SendReq.compressed [[20, 21, 22, 0, 0, 255, 255, 48, 0]]]
        [Ev.call 0, Ev.call 1, Ev.deflateEnd 1, Ev.deflateEnd 0] =
      [[0xC1, 3, 20, 21, 22], [0xC1, 3, 10, 11, 12]] ∧
    scheduleWrites ⟨0, 0, 0, 0⟩
        [SendReq.compressed [[10, 11, 12, 0, 0, 255, 255, 48, 0]],
         SendReq.compressed [[20, 21, 22, 0, 0, 255, 255, 48, 0]]]
        [Ev.call 0, Ev.deflateEnd 0, Ev.call 1, Ev.deflateEnd 1] =
      [[0xC1, 3, 10, 11, 12], [0xC1, 3, 20, 21, 22]] ∧
    ([[0xC1, 3, 20, 21, 22], [0xC1, 3, 10, 11, 12]] : List (List Nat)) ≠
      [[0xC1, 3, 10, 11, 12], [0xC1, 3, 20, 21, 22]] := by
  exact ⟨rfl, rfl, rfl, by decide⟩

/-- C10: a caller-supplied Buffer is never mutated by a send: Buffer
inputs keep `canModifyData = false`, so masking forces the merge-and-copy
path (making the in-place masking branch unreachable for them), and a
compressed send hands the internally built trimmed buffer — not the
caller's — to the frame builder. -/
theorem caller_buffer_never_mutated (b : List Nat) (opcode : Nat) (f m : Bool)
    (key : MaskKey) :
    ((frameAndSend opcode (JsData.buf b) f m false key []).2 = b) ∧
    (∀ n, mergeDecision n true false = true) ∧
    (∀ chunks, frameAndSend opcode (JsData.buf b) f m true key chunks =
      frameAndSendCore opcode f m true false key (deflateTrimmed chunks)) := by
  refine ⟨?_, ?_, fun chunks => rfl⟩
  · simp [frameAndSend, JsData.falsy, JsData.isBuffer, JsData.bytes,
      frameAndSendCore_dataAfter]
  · intro n
    simp [mergeDecision]

/-- C3: for every masked send, the four bytes stored in the header
immediately before the payload region are exactly the mask key, and
XOR-ing each byte of the payload region of the emitted frame with
mask[i mod 4] recovers the original payload — whether the header and
payload were merged into one write or sent as two. -/
theorem masked_send_unmask_roundtrip (opcode : Nat) (f compress canModify : Bool)
    (key : MaskKey) (data : List Nat) :
    ((((frameAndSendCore opcode f true compress canModify key data).1.flatten).drop
        (dataOffsetOf true data.length - 4)).take 4 = key.toList) ∧
    maskBytes key 0
        (((frameAndSendCore opcode f true compress canModify key data).1.flatten).drop
          (dataOffsetOf true data.length)) = data := by
  obtain ⟨pre, hpre, hprelen⟩ :
      ∃ pre : List Nat,
        (frameAndSendCore opcode f true compress canModify key data).1.flatten =
          (pre ++ key.toList) ++ maskBytes key 0 data ∧
        pre.length + 4 = dataOffsetOf true data.length := by
    refine ⟨((if f then opcode ||| 0x80 else opcode) |||
        (if compress then 0x40 else 0)) ::
      (secondByteVal data.length ||| 0x80) :: extLenBytes data.length, ?_, ?_⟩
    · rw [frameAndSendCore_flatten]
      simp
    · simp only [List.length_cons, extLenBytes_length, dataOffsetOf, if_true]
      omega
  constructor
  · rw [hpre, List.append_assoc]
    have h4 : dataOffsetOf true data.length - 4 = pre.length := by omega
    rw [h4, List.drop_left]
    have hkl : (4 : Nat) = key.toList.length := by simp [MaskKey.toList]
    rw [hkl, List.take_left]
  · rw [hpre]
    have hlen : dataOffsetOf true data.length = (pre ++ key.toList).length := by
      simp only [List.length_append, MaskKey.toList, List.length_cons,
        List.length_nil]
      omega
    rw [hlen, List.drop_left, maskBytes_maskBytes]

/-- C1: the emitted frame header encodes the payload length per the
documented width rule — below 126 the low seven bits of the second byte
hold the length itself; from 126 to 65535 they hold the marker 126
followed by the 2-byte big-endian length; from 65536 they hold the marker
127 followed by the 8-byte big-endian length — and the length decoded
back from the header equals the payload length.  The hypothesis restricts
to payloads below 2^32 bytes, the range in which the source's 32-bit
arithmetic is exact; it contains all of 0, 1, 125, 126, 65535, 65536. -/
theorem header_length_encoding (opcode : Nat) (f mask compress canModify : Bool)
    (key : MaskKey) (data : List Nat) (h32 : data.length < 4294967296) :
    LenFieldSpec ((frameAndSendCore opcode f mask compress canModify key data).1.flatten)
      data.length := by
  have hframe := frameAndSendCore_flatten opcode f mask compress canModify key data
  have hsb128 : ∀ sb : Nat, sb < 128 →
      ((if mask then sb ||| 0x80 else sb) : Nat) % 128 = sb := by
    intro sb hsb
    cases mask with
    | false => simp [Nat.mod_eq_of_lt hsb]
    | true =>
        rw [if_pos rfl, lor_mod_128]
        simp [Nat.mod_eq_of_lt hsb]
  unfold LenFieldSpec
  rcases Nat.lt_or_ge data.length 126 with h1 | h1
  · have hsb : secondByteVal data.length = data.length := by
      unfold secondByteVal
      rw [if_neg (by omega), if_neg (by omega)]
    have hg1 : ((frameAndSendCore opcode f mask compress canModify key data).1.flatten).getD
        1 0 % 128 = data.length := by
      rw [hframe, hsb]
      simp only [List.cons_append, List.getD_cons_succ, List.getD_cons_zero]
      exact hsb128 data.length (by omega)
    refine ⟨fun _ => hg1, fun hc _ => absurd hc (by omega),
      fun hc => absurd hc (by omega), ?_⟩
    unfold specDecodeLen
    rw [hg1, if_pos h1]
  · rcases Nat.lt_or_ge data.length 65536 with h2 | h2
    · have hsb : secondByteVal data.length = 126 := by
        unfold secondByteVal
        rw [if_neg (by omega), if_pos (by omega)]
      have hext : extLenBytes data.length =
          [data.length / 256 % 256, data.length % 256] := by
        unfold extLenBytes
        rw [if_neg (by omega), if_pos (by omega), writeUInt16BE_eq]
      have hg1 : ((frameAndSendCore opcode f mask compress canModify key data).1.flatten).getD
          1 0 % 128 = 126 := by
        rw [hframe, hsb]
        simp only [List.cons_append, List.getD_cons_succ, List.getD_cons_zero]
        exact hsb128 126 (by omega)
      have hg2 : ((frameAndSendCore opcode f mask compress canModify key data).1.flatten).getD
          2 0 = data.length / 256 % 256 := by
        rw [hframe, hext]
        simp
      have hg3 : ((frameAndSendCore opcode f mask compress canModify key data).1.flatten).getD
          3 0 = data.length % 256 := by
        rw [hframe, hext]
        simp
      refine ⟨fun hc => absurd hc (by omega),
        fun _ _ => ⟨hg1, by rw [hg2, hg3]; omega⟩,
        fun hc => absurd hc (by omega), ?_⟩
      unfold specDecodeLen
      rw [hg1, hg2, hg3, if_neg (by omega), if_pos rfl]
      omega
    · have hsb : secondByteVal data.length = 127 := by
        unfold secondByteVal
        rw [if_pos (by omega)]
      have hext : extLenBytes data.length =
          [0, 0, 0, 0, data.length / 16777216 % 256, data.length / 65536 % 256,
           data.length / 256 % 256, data.length % 256] := by
        unfold extLenBytes
        rw [if_pos (by omega), writeUInt32BE_eq, writeUInt32BE_eq]
        norm_num
      have hg1 : ((frameAndSendCore opcode f mask compress canModify key data).1.flatten).getD
          1 0 % 128 = 127 := by
        rw [hframe, hsb]
        simp only [List.cons_append, List.getD_cons_succ, List.getD_cons_zero]
        exact hsb128 127 (by omega)
      have hg2 : ((frameAndSendCore opcode f mask compress canModify key data).1.flatten).getD
          2 0 = 0 := by
        rw [hframe, hext]; simp
      have hg3 : ((frameAndSendCore opcode f mask compress canModify key data).1.flatten).getD
          3 0 = 0 := by
        rw [hframe, hext]; simp
      have hg4 : ((frameAndSendCore opcode f mask compress canModify key data).1.flatten).getD
          4 0 = 0 := by
        rw [hframe, hext]; simp
      have hg5 : ((frameAndSendCore opcode f mask compress canModify key data).1.flatten).getD
          5 0 = 0 := by
        rw [hframe, hext]; simp
      have hg6 : ((frameAndSendCore opcode f mask compress canModify key data).1.flatten).getD
          6 0 = data.length / 16777216 % 256 := by
        rw [hframe, hext]; simp
      have hg7 : ((frameAndSendCore opcode f mask compress canModify key data).1.flatten).getD
          7 0 = data.length / 65536 % 256 := by
        rw [hframe, hext]; simp
      have hg8 : ((frameAndSendCore opcode f mask compress canModify key data).1.flatten).getD
          8 0 = data.length / 256 % 256 := by
        rw [hframe, hext]; simp
      have hg9 : ((frameAndSendCore opcode f mask compress canModify key data).1.flatten).getD
          9 0 = data.length % 256 := by
        rw [hframe, hext]; simp
      have hsum : 2 ^ 56 * 0 + 2 ^ 48 * 0 + 2 ^ 40 * 0 + 2 ^ 32 * 0 +
          2 ^ 24 * (data.length / 16777216 % 256) + 2 ^ 16 * (data.length / 65536 % 256) +
          2 ^ 8 * (data.length / 256 % 256) + data.length % 256 = data.length := by
        norm_num
        omega
      refine ⟨fun hc => absurd hc (by omega),
        fun _ hc => absurd hc (by omega),
        fun _ => ⟨hg1, by rw [hg2, hg3, hg4, hg5, hg6, hg7, hg8, hg9]; exact hsum⟩, ?_⟩
      unfold specDecodeLen
      rw [hg1, hg2, hg3, hg4, hg5, hg6, hg7, hg8, hg9, if_neg (by omega),
        if_neg (by omega)]
      exact hsum

/-- Witness for the header length encoding theorem: a concrete 130-byte
payload, whose length discharges the below-2^32 hypothesis. -/
theorem header_length_encoding_witness :
    (List.replicate 130 (7 : Nat)).length < 4294967296 ∧
    LenFieldSpec ((frameAndSendCore 1 true false false false ⟨0, 0, 0, 0⟩
        (List.replicate 130 (7 : Nat))).1.flatten)
      (List.replicate 130 (7 : Nat)).length := by
  exact ⟨by simp, header_length_encoding 1 true false false false ⟨0, 0, 0, 0⟩
    (List.replicate 130 (7 : Nat)) (by simp)⟩
